import Mathlib

/-!
Verification development for the font-resolution and text-decoding core of
`pdf/model/font.go` (package `model`).  The document object model, the cmap
package, the text-encoding package and the standard-font tables are external
collaborators (spec §1, §6); they are embedded at their interface boundary.
Machine integers are modelled as `Nat`/`Int`; PDF bytes as `Fin 256`.
-/

set_option autoImplicit false

namespace UniPdf

/-- Modelled from the spec: a raw content-stream byte (§6, stream decoding
returns raw decoded bytes). -/
abbrev Byte := Fin 256

/-- Modelled from the spec: the document object model's polymorphic value type
(`core.PdfObject`, not under src/): name / number / string / array / dictionary
/ stream / indirect reference / null (§6).  A dictionary is an ordered list of
key-value pairs; a stream carries its object number and raw payload. -/
inductive PdfObject : Type where
  | name (s : String)
  | integer (n : Int)
  | strval (s : String)
  | null
  | reference (objectNumber : Int)
  | stream (objectNumber : Int) (raw : List Byte)
  | dict (entries : List (String × PdfObject))
  | indirect (objectNumber : Int) (inner : PdfObject)

/-- Modelled from the spec: typed dictionary access (`PdfObjectDictionary.Get`,
not under src/) — get-by-key returning an optional value (§6).  `Get` returns
the first binding for the key. -/
def dictGet (d : List (String × PdfObject)) (key : String) : Option PdfObject :=
  (d.find? (fun p => p.1 = key)).map (fun p => p.2)

/-- Modelled from the spec: dictionary update (`PdfObjectDictionary.Set`, not
under src/) — overwrites an existing binding in place, otherwise appends. -/
def dictSet (d : List (String × PdfObject)) (key : String) (v : PdfObject) :
    List (String × PdfObject) :=
  if d.any (fun p => p.1 = key) then
    d.map (fun p => if p.1 = key then (key, v) else p)
  else d ++ [(key, v)]

/-- Modelled from the spec: indirection resolution (`core.TraceToDirectObject`,
not under src/) — follow indirect references to their direct target (§6). -/
def TraceToDirectObject : PdfObject → PdfObject
  | .indirect _ inner => TraceToDirectObject inner
  | o => o

/-- Modelled from the spec: `core.GetName` (not under src/) — extract the string
of a name value, failing on anything else (including an absent value). -/
def GetName : Option PdfObject → Option String
  | some (.name s) => some s
  | _ => none

/-- The distinct error values reachable from `font.go`.  `fontNotSupported` is
`model.ErrFontNotSupported`, `requiredAttributeMissing` is
`model.ErrRequiredAttributeMissing`, `typeError` is `core.ErrTypeError`,
`cyclicalType0` is the `"Cyclical type0 loading"` error and
`unsupportedFontType` the formatted `"Unsupported font type"` error.  `other`
stands for errors produced inside external collaborators. -/
inductive FontError : Type where
  | fontNotSupported
  | requiredAttributeMissing
  | typeError
  | cyclicalType0
  | unsupportedFontType
  | other (tag : String)
deriving DecidableEq

/-- Modelled from the spec: the decoded explicit mapping table (`cmap.CMap`,
not under src/) as its lookup-by-code capability `CharcodeToUnicode2` (§2:
"the core treats it as a black-box component offering lookup-by-code"). -/
abbrev CMap := Nat → Option String

/-- Modelled from the spec: the built-in encoding capability
(`textencoding.TextEncoder`, not under src/) as its `CharcodeToRune`
lookup — a character code resolves to an optional Unicode scalar (§2). -/
abbrev TextEncoder := Nat → Option Char

/-- `PdfFontDescriptor` from `font.go`: all passthrough fields are kept as
opaque optional document-model values; `fontFile`/`fontFile2` hold the decoded
embedded-program summaries (contents irrelevant here, kept as `Unit`);
`containerNum` models the indirect-object container captured at parse time. -/
structure PdfFontDescriptor where
  FontName : Option PdfObject := none
  FontFamily : Option PdfObject := none
  FontStretch : Option PdfObject := none
  FontWeight : Option PdfObject := none
  Flags : Option PdfObject := none
  FontBBox : Option PdfObject := none
  ItalicAngle : Option PdfObject := none
  Ascent : Option PdfObject := none
  Descent : Option PdfObject := none
  Leading : Option PdfObject := none
  CapHeight : Option PdfObject := none
  XHeight : Option PdfObject := none
  StemV : Option PdfObject := none
  StemH : Option PdfObject := none
  AvgWidth : Option PdfObject := none
  MaxWidth : Option PdfObject := none
  MissingWidth : Option PdfObject := none
  FontFile : Option PdfObject := none
  FontFile2 : Option PdfObject := none
  FontFile3 : Option PdfObject := none
  CharSet : Option PdfObject := none
  fontFile : Option Unit := none
  fontFile2 : Option Unit := none
  Style : Option PdfObject := none
  Lang : Option PdfObject := none
  FD : Option PdfObject := none
  CIDSet : Option PdfObject := none
  containerNum : Option Int := none

/-- `fontSkeleton` from `font.go`: the fields common to all PDF fonts. -/
structure fontSkeleton where
  basefont : String := ""
  subtype : String := ""
  toUnicode : Option PdfObject := none
  toUnicodeCmap : Option CMap := none
  fontDescriptor : Option PdfFontDescriptor := none
  dict : List (String × PdfObject) := []
  objectNumber : Int := 0

/-- `fontSkeleton.isCIDFont` from `font.go`: true exactly for the subtypes
`Type0`, `CIDFontType0` and `CIDFontType2`. -/
def fontSkeleton.isCIDFont (skel : fontSkeleton) : Bool :=
  skel.subtype == "Type0" || skel.subtype == "CIDFontType0" || skel.subtype == "CIDFontType2"

mutual

/-- `PdfFont` from `font.go`: a `fontSkeleton` together with the resolved
variant (`font.context`). -/
inductive PdfFont : Type where
  | mk (skeleton : fontSkeleton) (context : FontContext)

/-- The closed set of variants held in `font.context`: `pdfFontSimple`,
`pdfFontType0` (carrying `DescendantFont`), `pdfCIDFontType0`,
`pdfCIDFontType2`, the 14 `fonts.FontXxx` standard values, and `nil` for a
missing/unrecognized context.  Each variant's `Encoder()` result is carried as
an optional `TextEncoder`. -/
inductive FontContext : Type where
  | nil
  | simple (encoder : Option TextEncoder)
  | type0 (DescendantFont : PdfFont) (encoder : Option TextEncoder)
  | cid0 (encoder : Option TextEncoder)
  | cid2 (encoder : Option TextEncoder)
  | std (name : String) (encoder : Option TextEncoder)

end

/-- Skeleton component of a font handle. -/
def PdfFont.skeleton : PdfFont → fontSkeleton
  | .mk s _ => s

/-- Variant component of a font handle (`font.context`). -/
def PdfFont.context : PdfFont → FontContext
  | .mk _ c => c

/-- `PdfFont.BaseFont` from `font.go`. -/
def PdfFont.BaseFont (font : PdfFont) : String :=
  font.skeleton.basefont

mutual

/-- `PdfFont.Subtype` from `font.go`: the declared subtype, and for a Type0
context the declared subtype joined by `:` with the descendant's own label. -/
def PdfFont.Subtype : PdfFont → String
  | .mk skel ctx => FontContext.subtypeLabel skel.subtype ctx

/-- Helper computing `font.Subtype()`'s context-dependent part: Go's
`if t, ok := font.context.(*pdfFontType0); ok` type test. -/
def FontContext.subtypeLabel (subtype : String) : FontContext → String
  | .type0 descendant _ => subtype ++ ":" ++ PdfFont.Subtype descendant
  | _ => subtype

end

/-- The encoder exposed by each variant: Go's `actualFont()` returns the
context for every member of the closed variant set (and `nil` otherwise), and
`Encoder()` is then the variant's own encoder. -/
def FontContext.encoderOf : FontContext → Option TextEncoder
  | .nil => none
  | .simple e => e
  | .type0 _ e => e
  | .cid0 e => e
  | .cid2 e => e
  | .std _ e => e

/-- `PdfFont.Encoder` from `font.go`: `nil` when `actualFont()` is `nil`,
otherwise the variant's own `Encoder()`. -/
def PdfFont.Encoder (font : PdfFont) : Option TextEncoder :=
  font.context.encoderOf

/-- Modelled from the spec: the external collaborators called from `font.go`
but living outside src/ — stream decoding (`core.DecodeStream`), mapping-table
construction (`cmap.LoadCmapFromData`), the embedded-program summaries
(`newFontFileFromPdfObject`, `fonts.NewFontFile2FromPdfObject`), the
variant-specific constructors (`newPdfFontType0FromPdfObject`,
`newSimpleFontFromPdfObject`, `addEncoding`,
`newPdfCIDFontType0FromPdfObject`, `newPdfCIDFontType2FromPdfObject`) and the
serialized dictionary of a standard-14 font (`std.ToPdfObject()`).  Every
theorem below quantifies over this environment or instantiates it concretely,
so nothing is assumed about the collaborators beyond their signatures (§6). -/
structure FontEnv where
  DecodeStream : PdfObject → Except FontError (List Byte)
  LoadCmapFromData : List Byte → Bool → Except FontError CMap
  newFontFileFromPdfObject : PdfObject → Except FontError Unit
  NewFontFile2FromPdfObject : PdfObject → Except FontError Unit
  newPdfFontType0FromPdfObject : fontSkeleton → Except FontError FontContext
  newSimpleFontFromPdfObject : fontSkeleton → Bool → Except FontError FontContext
  addEncoding : FontContext → Except FontError FontContext
  newPdfCIDFontType0FromPdfObject : fontSkeleton → Except FontError FontContext
  newPdfCIDFontType2FromPdfObject : fontSkeleton → Except FontError FontContext
  standardFontToPdfObject : String → PdfObject

/-- Second half of `newPdfFontDescriptorFromPdfObject`: the
`descriptor.FontFile2` branch — decode failure is fatal. -/
def attachFontFile2 (env : FontEnv) (descriptor : PdfFontDescriptor) :
    Except FontError PdfFontDescriptor :=
  match descriptor.FontFile2 with
  | some obj =>
    match env.NewFontFile2FromPdfObject obj with
    | .error e => .error e
    | .ok t => .ok { descriptor with fontFile2 := some t }
  | none => .ok descriptor

/-- First half of the embedded-program handling in
`newPdfFontDescriptorFromPdfObject`: the `descriptor.FontFile` branch —
decode failure is fatal. -/
def attachFontFiles (env : FontEnv) (descriptor : PdfFontDescriptor) :
    Except FontError PdfFontDescriptor :=
  match descriptor.FontFile with
  | some obj =>
    match env.newFontFileFromPdfObject obj with
    | .error e => .error e
    | .ok ff => attachFontFile2 env { descriptor with fontFile := some ff }
  | none => attachFontFile2 env descriptor

/-- `newPdfFontDescriptorFromPdfObject` from `font.go`: accepts a direct
dictionary or one level of indirection (capturing the container), copies all
passthrough fields opaquely, then decodes any declared embedded programs. -/
def newPdfFontDescriptorFromPdfObject (env : FontEnv) (obj : PdfObject) :
    Except FontError PdfFontDescriptor :=
  let containerNum : Option Int :=
    match obj with
    | .indirect n _ => some n
    | _ => none
  let obj :=
    match obj with
    | .indirect _ inner => inner
    | o => o
  match obj with
  | .dict d =>
    let descriptor : PdfFontDescriptor := {
      containerNum := containerNum
      FontName := dictGet d "FontName"
      FontFamily := dictGet d "FontFamily"
      FontStretch := dictGet d "FontStretch"
      FontWeight := dictGet d "FontWeight"
      Flags := dictGet d "Flags"
      FontBBox := dictGet d "FontBBox"
      ItalicAngle := dictGet d "ItalicAngle"
      Ascent := dictGet d "Ascent"
      Descent := dictGet d "Descent"
      Leading := dictGet d "Leading"
      CapHeight := dictGet d "CapHeight"
      XHeight := dictGet d "XHeight"
      StemV := dictGet d "StemV"
      StemH := dictGet d "StemH"
      AvgWidth := dictGet d "AvgWidth"
      MaxWidth := dictGet d "MaxWidth"
      MissingWidth := dictGet d "MissingWidth"
      FontFile := dictGet d "FontFile"
      FontFile2 := dictGet d "FontFile2"
      FontFile3 := dictGet d "FontFile3"
      CharSet := dictGet d "CharSet"
      Style := dictGet d "Style"
      Lang := dictGet d "Lang"
      FD := dictGet d "FD"
      CIDSet := dictGet d "CIDSet" }
    attachFontFiles env descriptor
  | _ => .error .typeError

/-- Emit one optional field of the descriptor: Go's
`if this.X != nil { d.Set("X", this.X) }` pattern. -/
def setIfSome (d : List (String × PdfObject)) (key : String) :
    Option PdfObject → List (String × PdfObject)
  | some v => dictSet d key v
  | none => d

/-- `PdfFontDescriptor.ToPdfObject` from `font.go`: re-emits the fields in
source order into a fresh dictionary inside the (lazily created) container.
The `Style` branch reproduces the source exactly: on `this.Style != nil` the
source executes `d.Set("FontName", this.FontName)`. -/
def PdfFontDescriptor.ToPdfObject (this : PdfFontDescriptor) : PdfObject :=
  let d : List (String × PdfObject) := dictSet [] "Type" (.name "FontDescriptor")
  let d := setIfSome d "FontName" this.FontName
  let d := setIfSome d "FontFamily" this.FontFamily
  let d := setIfSome d "FontStretch" this.FontStretch
  let d := setIfSome d "FontWeight" this.FontWeight
  let d := setIfSome d "Flags" this.Flags
  let d := setIfSome d "FontBBox" this.FontBBox
  let d := setIfSome d "ItalicAngle" this.ItalicAngle
  let d := setIfSome d "Ascent" this.Ascent
  let d := setIfSome d "Descent" this.Descent
  let d := setIfSome d "Leading" this.Leading
  let d := setIfSome d "CapHeight" this.CapHeight
  let d := setIfSome d "XHeight" this.XHeight
  let d := setIfSome d "StemV" this.StemV
  let d := setIfSome d "StemH" this.StemH
  let d := setIfSome d "AvgWidth" this.AvgWidth
  let d := setIfSome d "MaxWidth" this.MaxWidth
  let d := setIfSome d "MissingWidth" this.MissingWidth
  let d := setIfSome d "FontFile" this.FontFile
  let d := setIfSome d "FontFile2" this.FontFile2
  let d := setIfSome d "FontFile3" this.FontFile3
  let d := setIfSome d "CharSet" this.CharSet
  let d := if this.Style.isSome then dictSet d "FontName" (this.FontName.getD .null) else d
  let d := setIfSome d "Lang" this.Lang
  let d := setIfSome d "FD" this.FD
  let d := setIfSome d "CIDSet" this.CIDSet
  .indirect (this.containerNum.getD 0) (.dict d)

/-- `toUnicodeToCmap` from `font.go`: requires a stream, decodes it and loads
the mapping table in simple/CID mode according to `!font.isCIDFont()`. -/
def toUnicodeToCmap (env : FontEnv) (toUnicode : PdfObject) (font : fontSkeleton) :
    Except FontError CMap :=
  match toUnicode with
  | .stream n raw =>
    match env.DecodeStream (.stream n raw) with
    | .error e => .error e
    | .ok data => env.LoadCmapFromData data (!font.isCIDFont)
  | _ => .error .typeError

/-- The `ToUnicode` step of `newFontSkeletonFromPdfObject`: if present, store
the traced object and build the mapping table; construction failure is fatal. -/
def loadToUnicode (env : FontEnv) (d : List (String × PdfObject)) (font : fontSkeleton) :
    Except FontError fontSkeleton :=
  match dictGet d "ToUnicode" with
  | none => .ok font
  | some toUnicode =>
    let tu := TraceToDirectObject toUnicode
    let font := { font with toUnicode := some tu }
    match toUnicodeToCmap env tu font with
    | .error e => .error e
    | .ok codemap => .ok { font with toUnicodeCmap := some codemap }

/-- The `FontDescriptor` step of `newFontSkeletonFromPdfObject`: if present,
parse the descriptor; failure propagates. -/
def loadFontDescriptor (env : FontEnv) (d : List (String × PdfObject)) (font : fontSkeleton) :
    Except FontError fontSkeleton :=
  match dictGet d "FontDescriptor" with
  | none => loadToUnicode env d font
  | some obj =>
    match newPdfFontDescriptorFromPdfObject env obj with
    | .error e => .error e
    | .ok fontDescriptor => loadToUnicode env d { font with fontDescriptor := some fontDescriptor }

/-- `newFontSkeletonFromPdfObject` from `font.go`: resolve indirection, require
a dictionary (`ErrFontNotSupported` otherwise), require `Type` to be a name
(`ErrRequiredAttributeMissing`) equal to `Font` (`core.ErrTypeError`), require
`Subtype` (`ErrRequiredAttributeMissing`), reject `Type3`
(`ErrFontNotSupported`), require `BaseFont` (`ErrRequiredAttributeMissing`),
then load the optional descriptor and mapping table. -/
def newFontSkeletonFromPdfObject (env : FontEnv) (fontObj : PdfObject) :
    Except FontError fontSkeleton :=
  let objectNumber : Int :=
    match fontObj with
    | .indirect n _ => n
    | _ => 0
  match TraceToDirectObject fontObj with
  | .dict d =>
    match GetName ((dictGet d "Type").map TraceToDirectObject) with
    | none => .error .requiredAttributeMissing
    | some objtype =>
      if objtype ≠ "Font" then .error .typeError
      else
        match GetName ((dictGet d "Subtype").map TraceToDirectObject) with
        | none => .error .requiredAttributeMissing
        | some subtype =>
          if subtype = "Type3" then .error .fontNotSupported
          else
            match GetName ((dictGet d "BaseFont").map TraceToDirectObject) with
            | none => .error .requiredAttributeMissing
            | some basefont =>
              loadFontDescriptor env d
                { basefont := basefont, subtype := subtype, dict := d,
                  objectNumber := objectNumber }
  | _ => .error .fontNotSupported

/-- Modelled from the spec: the names of the 14 standard fonts — 4 Courier, 4
Helvetica and 4 Times weights/styles plus Symbol and ZapfDingbats (§3); the
table `fonts.Standard14Fonts` itself is not under src/. -/
def standard14Names : List String :=
  ["Courier", "Courier-Bold", "Courier-BoldOblique", "Courier-Oblique",
   "Helvetica", "Helvetica-Bold", "Helvetica-BoldOblique", "Helvetica-Oblique",
   "Times-Roman", "Times-Bold", "Times-BoldItalic", "Times-Italic",
   "Symbol", "ZapfDingbats"]

/-- Modelled from the spec: `fonts.Standard14Fonts` (not under src/) — a fixed
lookup table keyed by exact font name (§3).  The standard font's own built-in
encoder lives outside src/ as well; none of the properties below depend on it,
so it is left unpopulated in the table value. -/
def Standard14Fonts (basefont : String) : Option FontContext :=
  if basefont ∈ standard14Names then some (.std basefont none) else none

/-- `NewStandard14Font` from `font.go`: table lookup, then a skeleton with
subtype `Type1` and the given base font around the standard variant. -/
def NewStandard14Font (basefont : String) : Except FontError PdfFont :=
  match Standard14Fonts basefont with
  | none => .error .fontNotSupported
  | some std =>
    .ok (.mk { basefont := basefont, subtype := "Type1" } std)

/-- `newPdfFontFromPdfObject` from `font.go`: parse the common skeleton, then
dispatch on the declared subtype.  The `allowType0` flag guards against
cyclical Type0 loading; the simple-font branch short-circuits through the
standard-14 table when the base font matches and the subtype is `Type1`. -/
def newPdfFontFromPdfObject (env : FontEnv) (fontObj : PdfObject) (allowType0 : Bool) :
    Except FontError PdfFont :=
  match newFontSkeletonFromPdfObject env fontObj with
  | .error e => .error e
  | .ok skeleton =>
    if skeleton.subtype = "Type0" then
      if !allowType0 then .error .cyclicalType0
      else
        match env.newPdfFontType0FromPdfObject skeleton with
        | .error e => .error e
        | .ok type0font => .ok (.mk skeleton type0font)
    else if skeleton.subtype = "Type1" ∨ skeleton.subtype = "Type3" ∨
        skeleton.subtype = "MMType1" ∨ skeleton.subtype = "TrueType" then
      let simpleResult : Except FontError FontContext :=
        match Standard14Fonts skeleton.basefont with
        | some _ =>
          if skeleton.subtype = "Type1" then
            match newFontSkeletonFromPdfObject env
                (TraceToDirectObject (env.standardFontToPdfObject skeleton.basefont)) with
            | .error e => .error e
            | .ok stdSkeleton => env.newSimpleFontFromPdfObject stdSkeleton true
          else env.newSimpleFontFromPdfObject skeleton false
        | none => env.newSimpleFontFromPdfObject skeleton false
      match simpleResult with
      | .error e => .error e
      | .ok simplefont =>
        match env.addEncoding simplefont with
        | .error e => .error e
        | .ok simplefont => .ok (.mk skeleton simplefont)
    else if skeleton.subtype = "CIDFontType0" then
      match env.newPdfCIDFontType0FromPdfObject skeleton with
      | .error e => .error e
      | .ok cidfont => .ok (.mk skeleton cidfont)
    else if skeleton.subtype = "CIDFontType2" then
      match env.newPdfCIDFontType2FromPdfObject skeleton with
      | .error e => .error e
      | .ok cidfont => .ok (.mk skeleton cidfont)
    else .error .unsupportedFontType

/-- `NewPdfFontFromPdfObject` from `font.go`: the public entry point, allowing
Type0 at the top level. -/
def NewPdfFontFromPdfObject (env : FontEnv) (fontObj : PdfObject) :
    Except FontError PdfFont :=
  newPdfFontFromPdfObject env fontObj true

/-- Modelled from the spec: `cmap.MissingCodeString` (not under src/) — the
fixed sentinel "missing" placeholder appended for an unresolvable code (§4.4,
§7); a single replacement scalar. -/
def MissingCodeString : String := "�"

/-- Modelled from the spec: `textencoding.RuneToString` (not under src/) — on a
built-in-encoding hit the mapped Unicode scalar is appended (§4.4 step 2). -/
def RuneToString (r : Char) : String := String.singleton r

/-- The splitting loop of `CharcodeBytesToUnicode`: for a CID font a
single-byte input becomes `[]byte{0, data[0]}`, an odd-length input is then
padded with a trailing zero byte, and consecutive byte pairs form the
big-endian codes `uint16(data[i])<<8 | uint16(data[i+1])`; for a non-CID font
each byte is its own code. -/
def bePairs : List Byte → List Nat
  | b0 :: b1 :: rest => (b0.val <<< 8 ||| b1.val) :: bePairs rest
  | _ => []

/-- The `len(data) == 1` special case of the CID split: a single byte `b`
becomes `[]byte{0, data[0]}`. -/
def expandSingle : List Byte → List Byte
  | [b] => [0, b]
  | data => data

/-- The odd-length padding step of the CID split: `data = append(data, 0)`
when `len(data)%2 != 0`. -/
def padCID (data : List Byte) : List Byte :=
  if data.length % 2 ≠ 0 then data ++ [0] else data

/-- Code-splitting step of `CharcodeBytesToUnicode` (`font.go` lines 171-188),
keyed on `font.isCIDFont()`. -/
def splitCharcodes (isCID : Bool) (data : List Byte) : List Nat :=
  if isCID then bePairs (padCID (expandSingle data))
  else data.map Fin.val

/-- Loop body of `CharcodeBytesToUnicode` for one code: the explicit mapping
table is consulted first; on a miss (or no table) the built-in encoder is
consulted; an encoder miss appends the sentinel and counts one miss; with no
encoder the code is skipped.  Returns the appended string (if any) and the
miss-count increment. -/
def encoderLookupStep : Option TextEncoder → Nat → Option String × Nat
  | some encoder, code =>
    match encoder code with
    | some r => (some (RuneToString r), 0)
    | none => (some MissingCodeString, 1)
  | none, _ => (none, 0)

/-- One iteration of the decode loop (`font.go` lines 192-214). -/
def charcodeToUnicodeStep (font : PdfFont) (code : Nat) : Option String × Nat :=
  match font.skeleton.toUnicodeCmap with
  | some cm =>
    match cm code with
    | some r => (some r, 0)
    | none => encoderLookupStep font.Encoder code
  | none => encoderLookupStep font.Encoder code

/-- Concatenation of the per-code strings: `strings.Join(charstrings, "")`. -/
def joinStrings : List String → String
  | [] => ""
  | s :: rest => s ++ joinStrings rest

/-- The per-code half of `CharcodeBytesToUnicode`: run the loop over the split
codes, join the appended strings, and return the text together with
`len([]rune(out))` and the miss count. -/
def decodeCharcodes (font : PdfFont) (charcodes : List Nat) : String × Nat × Nat :=
  let results := charcodes.map (charcodeToUnicodeStep font)
  let charstrings := results.filterMap Prod.fst
  let numMisses := (results.map Prod.snd).sum
  let out := joinStrings charstrings
  (out, out.length, numMisses)

/-- `PdfFont.CharcodeBytesToUnicode` from `font.go`: split the bytes into
character codes, decode each code, and return `(text, code count, misses)`
where the code count is the number of Unicode scalars in the output. -/
def PdfFont.CharcodeBytesToUnicode (font : PdfFont) (data : List Byte) :
    String × Nat × Nat :=
  decodeCharcodes font (splitCharcodes font.skeleton.isCIDFont data)

/-- Follows the spec's words (§4.4 step 1, claim C2): a single-byte input `[b]`
is treated as the 2-byte code `[0x00, b]`; any other odd-length input is
zero-padded with one trailing zero byte to the next even length. -/
def zeroPadSpec (data : List Byte) : List Byte :=
  if data.length = 1 then 0 :: data
  else if data.length % 2 = 1 then data ++ [0]
  else data

/-- Follows the spec's words (§4.4 step 1): 2-byte big-endian character
codes. -/
def bePairsSpec : List Byte → List Nat
  | b0 :: b1 :: rest => (256 * b0.val + b1.val) :: bePairsSpec rest
  | _ => []

/-! Helper values and lemmas shared by the theorems below. -/

/-- A concrete collaborator environment whose hooks are never reached by the
inputs it is used with; font-file decoding and table loading simply fail. -/
def trivialEnv : FontEnv := {
  DecodeStream := fun _ => .error (.other "io")
  LoadCmapFromData := fun _ _ => .error (.other "cmap")
  newFontFileFromPdfObject := fun _ => .error (.other "fontfile")
  NewFontFile2FromPdfObject := fun _ => .error (.other "fontfile2")
  newPdfFontType0FromPdfObject := fun _ => .error (.other "type0")
  newSimpleFontFromPdfObject := fun _ _ => .error (.other "simple")
  addEncoding := fun c => .ok c
  newPdfCIDFontType0FromPdfObject := fun _ => .error (.other "cid0")
  newPdfCIDFontType2FromPdfObject := fun _ => .error (.other "cid2")
  standardFontToPdfObject := fun _ => .null }

/-- Whether a document-model value is a dictionary. -/
def isDictPdf : PdfObject → Bool
  | .dict _ => true
  | _ => false

theorem byte_or_eq (b0 b1 : Byte) :
    b0.val <<< 8 ||| b1.val = 256 * b0.val + b1.val := by
  have hb : b1.val < 2 ^ 8 := by
    have h := b1.isLt
    norm_num
  have h := Nat.mul_add_lt_is_or hb b0.val
  rw [Nat.shiftLeft_eq, Nat.mul_comm, ← h]

theorem bePairs_eq_spec : ∀ l : List Byte, bePairs l = bePairsSpec l
  | [] => rfl
  | [_] => rfl
  | b0 :: b1 :: rest => by
    rw [bePairs, bePairsSpec, byte_or_eq, bePairs_eq_spec rest]

theorem padCID_expand_eq_spec (data : List Byte) :
    padCID (expandSingle data) = zeroPadSpec data := by
  match data with
  | [] =>
    simp [padCID, expandSingle, zeroPadSpec]
  | [b] =>
    simp [padCID, expandSingle, zeroPadSpec]
  | a :: b :: rest =>
    have hexp : expandSingle (a :: b :: rest) = a :: b :: rest := rfl
    have hlen : ¬(a :: b :: rest).length = 1 := by simp
    rw [hexp]
    by_cases hp : (a :: b :: rest).length % 2 = 1
    · have hne : (a :: b :: rest).length % 2 ≠ 0 := by omega
      simp [padCID, zeroPadSpec, hne, hlen, hp]
    · have hne : ¬(a :: b :: rest).length % 2 ≠ 0 := by omega
      simp [padCID, zeroPadSpec, hne, hlen, hp]

theorem splitCharcodes_cid (data : List Byte) :
    splitCharcodes true data = bePairsSpec (zeroPadSpec data) := by
  have h : splitCharcodes true data = bePairs (padCID (expandSingle data)) := by
    simp [splitCharcodes]
  rw [h, padCID_expand_eq_spec, bePairs_eq_spec]

theorem encoderStep_snd_le (enc : Option TextEncoder) (code : Nat) :
    (encoderLookupStep enc code).2
      ≤ (encoderLookupStep enc code).1.elim 0 String.length := by
  cases enc with
  | none => simp [encoderLookupStep]
  | some encoder =>
    cases h : encoder code with
    | some r => simp [encoderLookupStep, h, RuneToString]
    | none =>
      have hone : (1 : Nat) ≤ MissingCodeString.length := by decide
      simpa [encoderLookupStep, h] using hone

theorem step_snd_le (font : PdfFont) (code : Nat) :
    (charcodeToUnicodeStep font code).2
      ≤ (charcodeToUnicodeStep font code).1.elim 0 String.length := by
  cases hcm : font.skeleton.toUnicodeCmap with
  | none => simpa [charcodeToUnicodeStep, hcm] using encoderStep_snd_le font.Encoder code
  | some cm =>
    cases hc : cm code with
    | some r => simp [charcodeToUnicodeStep, hcm, hc]
    | none => simpa [charcodeToUnicodeStep, hcm, hc] using encoderStep_snd_le font.Encoder code

theorem sum_snd_le_join_length (l : List (Option String × Nat))
    (h : ∀ p ∈ l, p.2 ≤ p.1.elim 0 String.length) :
    (l.map Prod.snd).sum ≤ (joinStrings (l.filterMap Prod.fst)).length := by
  induction l with
  | nil => simp [joinStrings]
  | cons p rest ih =>
    have hp := h p (by simp)
    have hrest := ih (fun q hq => h q (by simp [hq]))
    cases hfst : p.1 with
    | none =>
      rw [hfst] at hp
      simp only [Option.elim] at hp
      simp only [List.map_cons, List.sum_cons, List.filterMap_cons, hfst]
      omega
    | some s =>
      rw [hfst] at hp
      simp only [Option.elim] at hp
      simp only [List.map_cons, List.sum_cons, List.filterMap_cons, hfst,
        joinStrings, String.length_append]
      omega

/-- A font handle whose explicit mapping sends code 65 to the two-scalar
string `ab`; used to separate output-scalar counting from input counting. -/
def multiScalarFont : PdfFont :=
  .mk { basefont := "F", subtype := "Type1",
        toUnicodeCmap := some (fun code => if code = 65 then some "ab" else none) }
    (.simple none)

/-- The explicit mapping of `conflictFont`: code 65 resolves to `E`. -/
def conflictCmap : CMap :=
  fun code => if code = 65 then some "E" else none

/-- The built-in encoder of `conflictFont`: code 65 also resolves, to `B`. -/
def conflictEncoder : TextEncoder :=
  fun code => if code = 65 then some 'B' else none

/-- A font handle whose explicit mapping and built-in encoder both resolve
code 65, to different results. -/
def conflictFont : PdfFont :=
  .mk { basefont := "F", subtype := "Type1", toUnicodeCmap := some conflictCmap }
    (.simple (some conflictEncoder))

/-- A CID font handle whose variant exposes no built-in encoder; its explicit
mapping resolves only code 65. -/
def encoderlessFont : PdfFont :=
  .mk { basefont := "F", subtype := "CIDFontType0",
        toUnicodeCmap := some (fun code => if code = 65 then some "x" else none) }
    (.cid0 none)

/-!  Claim theorems. -/

/-- C1: for every font handle and byte sequence, `CharcodeBytesToUnicode`
returns a `(text, code count, miss count)` triple (totality holds by
construction — the Lean function is total) with the miss count bounded by the
code count. -/
theorem charcodeBytesToUnicode_missCount_le_codeCount
    (font : PdfFont) (data : List Byte) :
    (font.CharcodeBytesToUnicode data).2.2 ≤ (font.CharcodeBytesToUnicode data).2.1 := by
  unfold PdfFont.CharcodeBytesToUnicode decodeCharcodes
  refine sum_snd_le_join_length _ ?_
  intro p hp
  rcases List.mem_map.1 hp with ⟨code, _, rfl⟩
  exact step_snd_le font code

/-- C2: for a CID font handle, `CharcodeBytesToUnicode` splits the input into
2-byte big-endian codes after the spec's padding rule (a single byte `b`
becomes the code `[0x00, b]`; any other odd-length input gets one trailing
zero byte); for a non-CID font handle each byte is its own code. -/
theorem charcodeBytesToUnicode_code_splitting (font : PdfFont) (data : List Byte) :
    (font.skeleton.isCIDFont = true →
      font.CharcodeBytesToUnicode data
        = decodeCharcodes font (bePairsSpec (zeroPadSpec data))) ∧
    (font.skeleton.isCIDFont = false →
      font.CharcodeBytesToUnicode data = decodeCharcodes font (data.map Fin.val)) := by
  constructor
  · intro h
    unfold PdfFont.CharcodeBytesToUnicode
    rw [h, splitCharcodes_cid]
  · intro h
    unfold PdfFont.CharcodeBytesToUnicode
    rw [h]
    simp [splitCharcodes]

/-- Witness for C2 at concrete inputs: a 3-byte CID input is decoded through
the padded big-endian codes, and a non-CID input through byte codes. -/
theorem charcodeBytesToUnicode_code_splitting_witness :
    encoderlessFont.CharcodeBytesToUnicode [1, 2, 3]
      = decodeCharcodes encoderlessFont (bePairsSpec (zeroPadSpec [1, 2, 3])) ∧
    multiScalarFont.CharcodeBytesToUnicode [65]
      = decodeCharcodes multiScalarFont (List.map Fin.val ([65] : List Byte)) :=
  ⟨(charcodeBytesToUnicode_code_splitting encoderlessFont [1, 2, 3]).1 rfl,
   (charcodeBytesToUnicode_code_splitting multiScalarFont [65]).2 rfl⟩

/-- C3: the code count returned by `CharcodeBytesToUnicode` is the number of
Unicode scalars of the returned text, and in general it differs both from the
input byte count and from the number of character codes. -/
theorem codeCount_is_output_scalar_count :
    (∀ (font : PdfFont) (data : List Byte),
        (font.CharcodeBytesToUnicode data).2.1
          = (font.CharcodeBytesToUnicode data).1.length) ∧
    (∃ (font : PdfFont) (data : List Byte),
        (font.CharcodeBytesToUnicode data).2.1 ≠ data.length ∧
        (font.CharcodeBytesToUnicode data).2.1
          ≠ (splitCharcodes font.skeleton.isCIDFont data).length) := by
  constructor
  · intro font data
    rfl
  · refine ⟨multiScalarFont, [65], ?_, ?_⟩
    · have h : (multiScalarFont.CharcodeBytesToUnicode [65]).2.1 = 2 := rfl
      rw [h]
      simp
    · have h : (multiScalarFont.CharcodeBytesToUnicode [65]).2.1 = 2 := rfl
      have hs : (splitCharcodes multiScalarFont.skeleton.isCIDFont [65]).length = 1 := rfl
      rw [h, hs]
      simp

/-- C4: an explicit-mapping hit is appended as-is and the built-in encoder
plays no role in it (the result is the same for every font handle whose table
contains the hit, whatever its encoder); the encoder is consulted exactly on
an explicit-table miss or when no table exists. -/
theorem explicit_mapping_precedence :
    (∀ (font : PdfFont) (cm : CMap) (code : Nat) (s : String),
        font.skeleton.toUnicodeCmap = some cm → cm code = some s →
        charcodeToUnicodeStep font code = (some s, 0)) ∧
    (∀ (font : PdfFont) (cm : CMap) (code : Nat),
        font.skeleton.toUnicodeCmap = some cm → cm code = none →
        charcodeToUnicodeStep font code = encoderLookupStep font.Encoder code) ∧
    (∀ (font : PdfFont) (code : Nat),
        font.skeleton.toUnicodeCmap = none →
        charcodeToUnicodeStep font code = encoderLookupStep font.Encoder code) := by
  refine ⟨?_, ?_, ?_⟩
  · intro font cm code s hcm hs
    simp [charcodeToUnicodeStep, hcm, hs]
  · intro font cm code hcm hs
    simp [charcodeToUnicodeStep, hcm, hs]
  · intro font code hcm
    simp [charcodeToUnicodeStep, hcm]

/-- Witness for C4: on `conflictFont` both tables resolve code 65, and the
explicit mapping's result `E` wins over the encoder's `B`. -/
theorem explicit_mapping_precedence_witness :
    charcodeToUnicodeStep conflictFont 65 = (some "E", 0) :=
  explicit_mapping_precedence.1 conflictFont conflictCmap 65 "E" rfl rfl

/-- For a font handle without a built-in encoder, one decode step yields the
explicit mapping's result and can never count a miss. -/
theorem step_no_encoder (font : PdfFont) (h : font.Encoder = none) (code : Nat) :
    charcodeToUnicodeStep font code
      = (font.skeleton.toUnicodeCmap.bind (fun cm => cm code), 0) := by
  cases hcm : font.skeleton.toUnicodeCmap with
  | none => simp [charcodeToUnicodeStep, hcm, h, encoderLookupStep]
  | some cm =>
    cases hc : cm code with
    | some r => simp [charcodeToUnicodeStep, hcm, hc]
    | none => simp [charcodeToUnicodeStep, hcm, hc, h, encoderLookupStep]

/-- C10: when the active variant exposes no built-in encoder, codes missed by
the explicit mapping table (or all codes, if no table exists) are silently
dropped: the miss count is zero and the text is exactly the concatenation of
the explicit-table hits. -/
theorem no_encoder_misses_silently_dropped (font : PdfFont)
    (h : font.Encoder = none) (data : List Byte) :
    (font.CharcodeBytesToUnicode data).2.2 = 0 ∧
    (font.CharcodeBytesToUnicode data).1
      = joinStrings ((splitCharcodes font.skeleton.isCIDFont data).filterMap
          (fun code => font.skeleton.toUnicodeCmap.bind (fun cm => cm code))) := by
  unfold PdfFont.CharcodeBytesToUnicode decodeCharcodes
  constructor
  · refine List.sum_eq_zero ?_
    intro x hx
    rcases List.mem_map.1 hx with ⟨p, hp, rfl⟩
    rcases List.mem_map.1 hp with ⟨code, _, rfl⟩
    rw [step_no_encoder font h code]
  · show joinStrings (List.filterMap Prod.fst
        (List.map (charcodeToUnicodeStep font) (splitCharcodes font.skeleton.isCIDFont data))) = _
    rw [List.filterMap_map]
    have hfun : (Prod.fst ∘ charcodeToUnicodeStep font)
        = (fun code => font.skeleton.toUnicodeCmap.bind (fun cm => cm code)) := by
      funext code
      show (charcodeToUnicodeStep font code).1 = _
      rw [step_no_encoder font h code]
    rw [hfun]

/-- Witness for C10: on `encoderlessFont` (a CID font with no encoder), the
4-byte input splits into codes 65 and 16962; only 65 resolves, the other code
is dropped without being counted. -/
theorem no_encoder_misses_silently_dropped_witness :
    (encoderlessFont.CharcodeBytesToUnicode [0, 65, 66, 66]).2.2 = 0 ∧
    (encoderlessFont.CharcodeBytesToUnicode [0, 65, 66, 66]).1
      = joinStrings ((splitCharcodes encoderlessFont.skeleton.isCIDFont [0, 65, 66, 66]).filterMap
          (fun code => encoderlessFont.skeleton.toUnicodeCmap.bind (fun cm => cm code))) :=
  no_encoder_misses_silently_dropped encoderlessFont rfl [0, 65, 66, 66]

/-- Counterexample to C5 as stated: a dictionary whose `Type` is the name `X`
(present but not `Font`) fails with `core.ErrTypeError`, while a dictionary
missing `BaseFont` fails with `ErrRequiredAttributeMissing` — and the two
error values are distinct, so the `Type ≠ Font` case does not produce the
missing-required-field error. -/
theorem newFontSkeleton_type_value_error_counterexample :
    newFontSkeletonFromPdfObject trivialEnv
        (.dict [("Type", .name "X"), ("Subtype", .name "Type1"), ("BaseFont", .name "B")])
      = .error .typeError ∧
    newFontSkeletonFromPdfObject trivialEnv
        (.dict [("Type", .name "Font"), ("Subtype", .name "Type1")])
      = .error .requiredAttributeMissing ∧
    FontError.typeError ≠ FontError.requiredAttributeMissing :=
  ⟨rfl, rfl, by decide⟩

/-- C5 (amended): the header parser fails with the not-supported error when the
input does not resolve to a dictionary; with the missing-required-attribute
error when `Type` is absent, when (`Type = Font` and) `Subtype` is absent, or
when (`Type = Font`, `Subtype` is a name other than `Type3` and) `BaseFont` is
absent; with the distinct type-error — not the missing-field error — when
`Type` is present as a name other than `Font`; and with the not-supported
error when `Subtype` is `Type3`. -/
theorem newFontSkeleton_error_conditions :
    (∀ (env : FontEnv) (fontObj : PdfObject),
        isDictPdf (TraceToDirectObject fontObj) = false →
        newFontSkeletonFromPdfObject env fontObj = .error .fontNotSupported) ∧
    (∀ (env : FontEnv) (d : List (String × PdfObject)),
        dictGet d "Type" = none →
        newFontSkeletonFromPdfObject env (.dict d) = .error .requiredAttributeMissing) ∧
    (∀ (env : FontEnv) (d : List (String × PdfObject)) (t : String),
        dictGet d "Type" = some (.name t) → t ≠ "Font" →
        newFontSkeletonFromPdfObject env (.dict d) = .error .typeError) ∧
    (∀ (env : FontEnv) (d : List (String × PdfObject)),
        dictGet d "Type" = some (.name "Font") → dictGet d "Subtype" = none →
        newFontSkeletonFromPdfObject env (.dict d) = .error .requiredAttributeMissing) ∧
    (∀ (env : FontEnv) (d : List (String × PdfObject)),
        dictGet d "Type" = some (.name "Font") →
        dictGet d "Subtype" = some (.name "Type3") →
        newFontSkeletonFromPdfObject env (.dict d) = .error .fontNotSupported) ∧
    (∀ (env : FontEnv) (d : List (String × PdfObject)) (s : String),
        dictGet d "Type" = some (.name "Font") →
        dictGet d "Subtype" = some (.name s) → s ≠ "Type3" →
        dictGet d "BaseFont" = none →
        newFontSkeletonFromPdfObject env (.dict d) = .error .requiredAttributeMissing) := by
  refine ⟨?_, ?_, ?_, ?_, ?_, ?_⟩
  · intro env fontObj h
    unfold newFontSkeletonFromPdfObject
    cases htr : TraceToDirectObject fontObj <;> simp_all [isDictPdf]
  · intro env d h
    simp [newFontSkeletonFromPdfObject, TraceToDirectObject, h, GetName]
  · intro env d t h ht
    simp [newFontSkeletonFromPdfObject, TraceToDirectObject, h, GetName, ht]
  · intro env d ht hs
    simp [newFontSkeletonFromPdfObject, TraceToDirectObject, ht, hs, GetName]
  · intro env d ht hs
    simp [newFontSkeletonFromPdfObject, TraceToDirectObject, ht, hs, GetName]
  · intro env d s ht hs hs3 hb
    simp [newFontSkeletonFromPdfObject, TraceToDirectObject, ht, hs, hb, GetName, hs3]

/-- Witness for C5 (amended): concrete inputs hitting the non-dictionary,
missing-`Type`, and `Type3` clauses. -/
theorem newFontSkeleton_error_conditions_witness :
    newFontSkeletonFromPdfObject trivialEnv (.name "NotADict") = .error .fontNotSupported ∧
    newFontSkeletonFromPdfObject trivialEnv (.dict [("Subtype", .name "Type1")])
      = .error .requiredAttributeMissing ∧
    newFontSkeletonFromPdfObject trivialEnv
        (.dict [("Type", .name "Font"), ("Subtype", .name "Type3"), ("BaseFont", .name "B")])
      = .error .fontNotSupported :=
  ⟨newFontSkeleton_error_conditions.1 trivialEnv (.name "NotADict") rfl,
   newFontSkeleton_error_conditions.2.1 trivialEnv [("Subtype", .name "Type1")] rfl,
   newFontSkeleton_error_conditions.2.2.2.2.1 trivialEnv
     [("Type", .name "Font"), ("Subtype", .name "Type3"), ("BaseFont", .name "B")] rfl rfl⟩

/-- C6: with nested composite-font construction disallowed, a header whose
declared subtype is `Type0` is rejected with the cyclical-Type0 error before
any variant constructor runs, for every collaborator environment. -/
theorem type0_disallowed_rejected (env : FontEnv) (fontObj : PdfObject)
    (skeleton : fontSkeleton)
    (hparse : newFontSkeletonFromPdfObject env fontObj = .ok skeleton)
    (hsub : skeleton.subtype = "Type0") :
    newPdfFontFromPdfObject env fontObj false = .error .cyclicalType0 := by
  unfold newPdfFontFromPdfObject
  rw [hparse]
  simp [hsub]

/-- The dictionary of a well-formed Type0 header used in the C6 witness. -/
def type0Dict : List (String × PdfObject) :=
  [("Type", .name "Font"), ("Subtype", .name "Type0"), ("BaseFont", .name "B")]

/-- Witness for C6: a concrete Type0 header is rejected as cyclical when
`allowType0` is false. -/
theorem type0_disallowed_rejected_witness :
    newPdfFontFromPdfObject trivialEnv (.dict type0Dict) false = .error .cyclicalType0 :=
  type0_disallowed_rejected trivialEnv (.dict type0Dict)
    { basefont := "B", subtype := "Type0", dict := type0Dict } rfl rfl

/-- C7: `NewStandard14Font` succeeds exactly on the 14 standard font names,
the facade's subtype label is `Type1` and its base font is the given name;
any other name fails with the not-supported error. -/
theorem NewStandard14Font_spec (basefont : String) :
    (∀ font : PdfFont, NewStandard14Font basefont = .ok font →
        font.Subtype = "Type1" ∧ font.BaseFont = basefont) ∧
    ((∃ font : PdfFont, NewStandard14Font basefont = .ok font)
        ↔ basefont ∈ standard14Names) ∧
    (basefont ∉ standard14Names →
        NewStandard14Font basefont = .error .fontNotSupported) := by
  by_cases hmem : basefont ∈ standard14Names
  · have hok : NewStandard14Font basefont
        = .ok (.mk { basefont := basefont, subtype := "Type1" } (.std basefont none)) := by
      simp [NewStandard14Font, Standard14Fonts, hmem]
    refine ⟨?_, ?_, fun h => absurd hmem h⟩
    · intro font hfont
      rw [hok] at hfont
      injection hfont with h
      subst h
      exact ⟨rfl, rfl⟩
    · exact ⟨fun _ => hmem, fun _ => ⟨_, hok⟩⟩
  · have herr : NewStandard14Font basefont = .error .fontNotSupported := by
      simp [NewStandard14Font, Standard14Fonts, hmem]
    refine ⟨?_, ?_, fun _ => herr⟩
    · intro font hfont
      rw [herr] at hfont
      exact Except.noConfusion hfont
    · constructor
      · rintro ⟨font, hfont⟩
        rw [herr] at hfont
        exact Except.noConfusion hfont
      · intro h
        exact absurd h hmem


/-- The facade produced by `NewStandard14Font "Helvetica-Bold"`. -/
def helveticaBoldFont : PdfFont :=
  .mk { basefont := "Helvetica-Bold", subtype := "Type1" } (.std "Helvetica-Bold" none)

/-- Witness for C7: `Helvetica-Bold` succeeds with subtype label `Type1`,
`NotARealFont` fails with the not-supported error. -/
theorem NewStandard14Font_spec_witness :
    (helveticaBoldFont.Subtype = "Type1" ∧ helveticaBoldFont.BaseFont = "Helvetica-Bold") ∧
    NewStandard14Font "NotARealFont" = .error .fontNotSupported :=
  ⟨(NewStandard14Font_spec "Helvetica-Bold").1 helveticaBoldFont rfl,
   (NewStandard14Font_spec "NotARealFont").2.2 (by decide)⟩

/-- The descriptor dictionary used for C8: `Style`, `Lang` and `FontName`
present at parse time. -/
def styleDescriptorDict : List (String × PdfObject) :=
  [("FontName", .name "F"), ("Style", .dict []), ("Lang", .name "en")]

/-- Lookup of one key in the dictionary emitted by
`PdfFontDescriptor.ToPdfObject`. -/
def descriptorOutputGet (descriptor : PdfFontDescriptor) (key : String) : Option PdfObject :=
  match descriptor.ToPdfObject with
  | .indirect _ (.dict d) => dictGet d key
  | _ => none

/-- C8 fails on the code: parsing a descriptor whose `Style` is present and
serializing it back emits no `Style` key at all (the `Style` branch of
`ToPdfObject` re-sets `FontName` instead), while `Lang` round-trips; so the
parse/serialize round-trip does not preserve every present passthrough
field. -/
theorem fontDescriptor_style_not_reemitted :
    dictGet styleDescriptorDict "Style" = some (.dict []) ∧
    (newPdfFontDescriptorFromPdfObject trivialEnv (.dict styleDescriptorDict)).toOption.map
        (fun descriptor =>
          (descriptor.Style.isSome, descriptorOutputGet descriptor "Style",
           descriptorOutputGet descriptor "Lang"))
      = some (true, none, some (.name "en")) :=
  ⟨rfl, rfl⟩

/-- C9: the subtype label of a composite (Type0-context) facade is the outer
declared subtype, `:`, then the descendant's own label; for every other
variant it is the declared subtype alone. -/
theorem subtype_label_composite (skel : fontSkeleton) (descendant : PdfFont)
    (enc : Option TextEncoder) :
    (PdfFont.mk skel (.type0 descendant enc)).Subtype
        = skel.subtype ++ ":" ++ descendant.Subtype ∧
    (∀ ctx : FontContext,
        (∀ (d : PdfFont) (e : Option TextEncoder), ctx ≠ .type0 d e) →
        (PdfFont.mk skel ctx).Subtype = skel.subtype) := by
  constructor
  · simp [PdfFont.Subtype, FontContext.subtypeLabel]
  · intro ctx hne
    cases ctx with
    | type0 d e => exact absurd rfl (hne d e)
    | nil => simp [PdfFont.Subtype, FontContext.subtypeLabel]
    | simple e => simp [PdfFont.Subtype, FontContext.subtypeLabel]
    | cid0 e => simp [PdfFont.Subtype, FontContext.subtypeLabel]
    | cid2 e => simp [PdfFont.Subtype, FontContext.subtypeLabel]
    | std n e => simp [PdfFont.Subtype, FontContext.subtypeLabel]

/-- A CIDFontType2 descendant facade. -/
def cid2DescendantFont : PdfFont :=
  .mk { basefont := "X", subtype := "CIDFontType2" } (.cid2 none)

/-- A composite facade wrapping `cid2DescendantFont`. -/
def compositeFont : PdfFont :=
  .mk { basefont := "C", subtype := "Type0" } (.type0 cid2DescendantFont none)

/-- Witness for C9: the composite facade's label is `Type0:CIDFontType2` and
the plain CID facade's label is its declared subtype. -/
theorem subtype_label_composite_witness :
    compositeFont.Subtype = "Type0:CIDFontType2" ∧
    cid2DescendantFont.Subtype = "CIDFontType2" := by
  have h2 : cid2DescendantFont.Subtype = "CIDFontType2" :=
    (subtype_label_composite { basefont := "X", subtype := "CIDFontType2" }
        cid2DescendantFont none).2 (.cid2 none)
      (fun d e h => FontContext.noConfusion h)
  have h1 : compositeFont.Subtype = "Type0" ++ ":" ++ cid2DescendantFont.Subtype :=
    (subtype_label_composite { basefont := "C", subtype := "Type0" }
        cid2DescendantFont none).1
  refine ⟨?_, h2⟩
  rw [h1, h2]
  rfl

end UniPdf
